import Mathlib

/-!
Verification of the dgidb-mcp-server staging and query engine.

The repository front end (`src/index.ts`, class `DGIdbMCP`) forwards GraphQL
results to a Durable Object (`JsonToSqlDO`, imported from `./do.js`) that
infers a relational schema from JSON, materializes tables, and executes
read-only SQL.  `src/index.ts` and `src/lib/types.ts` are embedded from the
source; the Durable Object implementation file is not part of the available
sources, so its behavior (schema inference, type unification, relationship
detection, materialization, session store, query validation) is modelled
from the specification, as marked on each definition.
-/

namespace Dgidb

/-- JSON values, as handled by the engine.  Numbers are modelled as rationals
so that the integral / non-integral distinction made by the Type Unifier is
exact. -/
inductive Json where
  | null : Json
  | bool (b : Bool) : Json
  | num (q : Rat) : Json
  | str (s : String) : Json
  | arr (xs : List Json) : Json
  | obj (kvs : List (String × Json)) : Json

mutual

/-- Structural copy of a JSON value.  Models the `JSON.stringify` /
`JSON.parse` round trip performed by `stageDataInDurableObject`
(src/index.ts line 217): the Durable Object receives a serialized copy of the
caller's object, never a reference to it. -/
def jsonCopy : Json → Json
  | .null => .null
  | .bool b => .bool b
  | .num q => .num q
  | .str s => .str s
  | .arr xs => .arr (jsonCopyList xs)
  | .obj kvs => .obj (jsonCopyFields kvs)

def jsonCopyList : List Json → List Json
  | [] => []
  | x :: xs => jsonCopy x :: jsonCopyList xs

def jsonCopyFields : List (String × Json) → List (String × Json)
  | [] => []
  | (k, v) :: kvs => (k, jsonCopy v) :: jsonCopyFields kvs

end

/-- The five storage types of the engine (spec §3, Column). -/
inductive ColType where
  | integer : ColType
  | real : ColType
  | boolean : ColType
  | text : ColType
  | json : ColType
deriving DecidableEq, Repr

/-- Modelled from the spec (§4.1 Type Unifier; the Durable Object source is
not available): classification of a single JSON value into a storage type.
`null` contributes no information; booleans map to `boolean`; integral
numbers to `integer`; non-integral numbers to `real`; strings to `text`;
objects/arrays appearing as a leaf value fall back to `json`. -/
def classifyScalar : Json → Option ColType
  | .null => none
  | .bool _ => some .boolean
  | .num q => if q.den = 1 then some .integer else some .real
  | .str _ => some .text
  | .arr _ => some .json
  | .obj _ => some .json

/-- Modelled from the spec (§4.1; the Durable Object source is not
available): the total widening merge of two observed storage types.
Equal types are kept; `json` absorbs everything; `text` absorbs every
scalar type; `integer` mixed with `real` widens to `real`; any other
mix (incompatible shapes) widens to `json`.  The merge is a total
function: unification never fails. -/
def unify (a b : ColType) : ColType :=
  if a = b then a
  else if a = .json ∨ b = .json then .json
  else if a = .text ∨ b = .text then .text
  else if (a = .integer ∧ b = .real) ∨ (a = .real ∧ b = .integer) then .real
  else .json

/-- Modelled from the spec (§4.1, `observe(current_type, value)`): merge one
more observed value into the running column type. -/
def observeType (t : Option ColType) (v : Json) : Option ColType :=
  match classifyScalar v with
  | none => t
  | some c =>
    match t with
    | none => some c
    | some t0 => some (unify t0 c)

/-- Modelled from the spec (§4.1): the column type inferred from a list of
observed values; `none` when every observation was `null`. -/
def inferColType (vs : List Json) : Option ColType :=
  vs.foldl observeType none

/-- A JSON value that is a (nonempty) object node. -/
def isObjNode : Json → Bool
  | .obj _ => true
  | _ => false

/-- A JSON value that is a nonempty array whose elements are all objects
(spec §4.3: candidate one-to-many / junction child values; scalar-only,
empty, or mixed arrays are not relationships). -/
def isArrayOfObjs : Json → Bool
  | .arr xs => !xs.isEmpty && xs.all isObjNode
  | _ => false

/-- A field is a relationship candidate when its value is a nested object or
an array of objects (spec §4.2 step 1); every other field is a column
candidate on the parent table. -/
def isRelationshipField (v : Json) : Bool :=
  isObjNode v || isArrayOfObjs v

/-- The column-candidate fields of one object row (scalar values, plus
scalar/empty/mixed arrays which land in a `json` column, spec §4.3). -/
def colFields (kvs : List (String × Json)) : List (String × Json) :=
  kvs.filter (fun kv => !isRelationshipField kv.2)

/-- One discovered row: the table it belongs to and its column fields.
Modelled from the spec (§4.2): the Durable Object source is not available. -/
structure RowOcc where
  table : String
  fields : List (String × Json)

/-- One discovered nested-field occurrence, handed to the Relationship
Detector: parent table, field name, child value.  Modelled from the spec
(§4.3 `classify(parent_table, field_name, child_values)`). -/
structure RelOcc where
  parent : String
  field : String
  child : Json

mutual

/-- Modelled from the spec (§4.2, depth-first walk): collect the rows of
every entity table discovered in a JSON value rooted at table `t`.
Structurally identical objects at the same path merge into one table; a
nested object or array-of-objects field contributes rows to the table
named by the field key. -/
def rowsOfJson (t : String) : Json → List RowOcc
  | .obj kvs => ⟨t, colFields kvs⟩ :: rowsOfFields kvs
  | .arr xs => rowsOfElems t xs
  | _ => []

def rowsOfFields : List (String × Json) → List RowOcc
  | [] => []
  | (k, v) :: kvs =>
    (if isRelationshipField v then rowsOfJson k v else []) ++ rowsOfFields kvs

def rowsOfElems (t : String) : List Json → List RowOcc
  | [] => []
  | x :: xs => rowsOfJson t x ++ rowsOfElems t xs

end

mutual

/-- Modelled from the spec (§4.2 step 1, §4.3): collect every nested-field
occurrence (parent table, field name, child value) in depth-first order. -/
def relsOfJson (t : String) : Json → List RelOcc
  | .obj kvs => relsOfFields t kvs
  | .arr xs => relsOfElems t xs
  | _ => []

def relsOfFields (t : String) : List (String × Json) → List RelOcc
  | [] => []
  | (k, v) :: kvs =>
    (if isRelationshipField v then ⟨t, k, v⟩ :: relsOfJson k v else [])
      ++ relsOfFields t kvs

def relsOfElems (t : String) : List Json → List RelOcc
  | [] => []
  | x :: xs => relsOfJson t x ++ relsOfElems t xs

end

/-- Lexicographic order on character lists (by code point). -/
def leStrL : List Char → List Char → Bool
  | [], _ => true
  | _ :: _, [] => false
  | a :: as, b :: bs => if a == b then leStrL as bs else Nat.blt a.toNat b.toNat

/-- Insert a string into a sorted list (ascending). -/
def insertSorted (s : String) : List String → List String
  | [] => [s]
  | x :: xs => if leStrL s.data x.data then s :: x :: xs else x :: insertSorted s xs

/-- Sort a list of strings ascending (insertion sort). -/
def sortKeys (l : List String) : List String :=
  l.foldr insertSorted []

/-- Keep the first occurrence of each element, preserving discovery order. -/
def firstDedupAux [BEq α] (seen : List α) : List α → List α
  | [] => []
  | x :: xs =>
    if seen.contains x then firstDedupAux seen xs
    else x :: firstDedupAux (x :: seen) xs

def firstDedup [BEq α] (l : List α) : List α :=
  firstDedupAux [] l

/-- All keys of the elements of a list of JSON objects, in order. -/
def elemKeys : List Json → List String
  | [] => []
  | .obj kvs :: xs => kvs.map Prod.fst ++ elemKeys xs
  | _ :: xs => elemKeys xs

/-- Modelled from the spec (§4.3, design note: "structural fingerprint:
sorted key set"): the shape signature of a child value — the sorted,
deduplicated key set of the object (for an array of objects, the union of
the element key sets). -/
def fingerprint : Json → List String
  | .obj kvs => sortKeys (firstDedup (kvs.map Prod.fst))
  | .arr xs => sortKeys (firstDedup (elemKeys xs))
  | _ => []

/-- Modelled from the spec (§4.3): the distinct parent tables from which a
child shape (by structural fingerprint) is reachable in the staging batch. -/
def parentTables (rels : List RelOcc) (fp : List String) : List String :=
  firstDedup ((rels.filter (fun o => fingerprint o.child = fp)).map (fun o => o.parent))

/-- Relationship record, embedded from `src/lib/types.ts` `RelationshipInfo`
(kind, target table, optional foreign-key column, optional junction table
name, confidence from `_meta.confidence`). -/
inductive RelKind where
  | foreign_key : RelKind
  | junction_table : RelKind
deriving DecidableEq, Repr

structure RelationshipInfo where
  type : RelKind
  target_table : String
  foreign_key_column : Option String
  junction_table_name : Option String
  confidence : Rat
deriving DecidableEq, Repr

/-- Modelled from the spec (§4.3, one-to-many confidence: "1.0 if every
parent row had a non-empty array of the same child shape, lower if many
parents had empty or absent arrays"): the fraction of parent rows carrying
a nonempty array under this field. -/
def oneToManyConfidence (rows : List RowOcc) (rels : List RelOcc) (o : RelOcc) : Rat :=
  let parentRows := (rows.filter (fun r => r.table == o.parent)).length
  let occs := (rels.filter (fun r =>
    r.parent == o.parent && r.field == o.field && isArrayOfObjs r.child)).length
  if parentRows = 0 then 1 else (occs : Rat) / (parentRows : Rat)

/-- Modelled from the spec (§4.3, junction confidence "weighted down as
duplication ambiguity increases"): inverse of the number of distinct parent
shapes reaching the child shape. -/
def junctionConfidence (rels : List RelOcc) (o : RelOcc) : Rat :=
  1 / ((parentTables rels (fingerprint o.child)).length : Rat)

/-- Modelled from the spec (§4.3 decision policy; the Durable Object source
is not available): classify one nested-field occurrence.
A single nested object is a `foreign_key` (the parent gains a synthetic
foreign-key column pointing at the child, confidence 1.0); an array of
objects whose shape is reachable from two or more distinct parent tables is
a `junction_table`; otherwise it is one-to-many, a `foreign_key` in the
reverse direction (the child gains a column pointing back at the parent). -/
def classify (rows : List RowOcc) (rels : List RelOcc) (o : RelOcc) : RelationshipInfo :=
  if isObjNode o.child then
    { type := .foreign_key
      target_table := o.field
      foreign_key_column := some (o.field ++ "_id")
      junction_table_name := none
      confidence := 1 }
  else if 2 ≤ (parentTables rels (fingerprint o.child)).length then
    { type := .junction_table
      target_table := o.field
      foreign_key_column := none
      junction_table_name := some (o.parent ++ "_" ++ o.field)
      confidence := junctionConfidence rels o }
  else
    { type := .foreign_key
      target_table := o.parent
      foreign_key_column := some (o.parent ++ "_id")
      junction_table_name := none
      confidence := oneToManyConfidence rows rels o }

/-- A materialized SQL cell value.  A structured JSON leaf stored in a
`json` column is kept as the structured value (the engine stores its
serialization; the model keeps the value itself). -/
inductive SqlValue where
  | null : SqlValue
  | int (n : Int) : SqlValue
  | real (q : Rat) : SqlValue
  | bool (b : Bool) : SqlValue
  | text (s : String) : SqlValue
  | jsonVal (v : Json) : SqlValue

/-- Modelled from the spec (§4.4): the stored form of one column value. -/
def sqlValueOf : Json → SqlValue
  | .null => .null
  | .bool b => .bool b
  | .num q => if q.den = 1 then .int q.num else .real q
  | .str s => .text s
  | j => .jsonVal j

/-- One physical table: ordered columns with types, and materialized rows. -/
structure TableData where
  columns : List (String × ColType)
  rows : List (List SqlValue)

/-- The session store: named tables.  Modelled from the spec (§4.5): one
embedded relational store per session. -/
abbrev Store := List (String × TableData)

/-- Entity-table names in discovery order. -/
def tableNamesOf (rows : List RowOcc) : List String :=
  firstDedup (rows.map (fun r => r.table))

/-- Column keys of a table: the union of the column-field keys observed
across its rows, in first-seen order (spec §4.3: inconsistent element
shapes union all observed keys; missing keys read as null). -/
def columnKeysFor (rows : List RowOcc) (t : String) : List String :=
  firstDedup (((rows.filter (fun r => r.table == t)).map
    (fun r => r.fields.map Prod.fst)).flatten)

/-- All values observed for key `k` across the rows of table `t` (a row
lacking the key contributes nothing, i.e. null). -/
def valuesFor (rows : List RowOcc) (t k : String) : List Json :=
  (rows.filter (fun r => r.table == t)).filterMap (fun r => r.fields.lookup k)

/-- Modelled from the spec (§4.1/§4.4): the inferred storage type of a
column; a column observed only as null defaults to `text`. -/
def columnTypeFor (rows : List RowOcc) (t k : String) : ColType :=
  (inferColType (valuesFor rows t k)).getD .text

/-- Modelled from the spec (§4.3/§4.4): synthetic foreign-key columns of
table `t` — one per single-object child field of `t` (pointing at the
child), and one per one-to-many array field whose child table is `t`
(pointing back at the parent). -/
def fkColumnsFor (rels : List RelOcc) (t : String) : List String :=
  firstDedup ((rels.map (fun o =>
    (if o.parent == t && isObjNode o.child then [o.field ++ "_id"] else []) ++
    (if o.field == t && isArrayOfObjs o.child
        && !(2 ≤ (parentTables rels (fingerprint o.child)).length : Bool)
      then [o.parent ++ "_id"] else []))).flatten)

/-- Modelled from the spec (§4.4): the declared columns of entity table `t` —
a synthetic integer primary key `id`, then the inferred columns in discovery
order, then the synthetic foreign-key columns (plain integer columns). -/
def columnsFor (rows : List RowOcc) (rels : List RelOcc) (t : String) :
    List (String × ColType) :=
  ("id", ColType.integer)
    :: (columnKeysFor rows t).map (fun k => (k, columnTypeFor rows t k))
    ++ (fkColumnsFor rels t).map (fun c => (c, ColType.integer))

/-- Modelled from the spec (§4.4): one materialized row tuple — the
synthetic primary key is the row index; a missing field reads as null
(referential integrity is advisory, so absent foreign keys are null too). -/
def tupleFor (cols : List (String × ColType)) (idx : Nat)
    (fields : List (String × Json)) : List SqlValue :=
  cols.map (fun c =>
    if c.1 == "id" then .int idx
    else match fields.lookup c.1 with
      | some v => sqlValueOf v
      | none => .null)

/-- Modelled from the spec (§4.4): the materialized entity table `t`. -/
def tableDataFor (rows : List RowOcc) (rels : List RelOcc) (t : String) : TableData :=
  let cols := columnsFor rows rels t
  { columns := cols
    rows := ((rows.filter (fun r => r.table == t)).enum).map
      (fun ir => tupleFor cols ir.1 ir.2.fields) }

/-- The nested-field occurrences classified as junction tables. -/
def junctionOccs (rels : List RelOcc) : List RelOcc :=
  rels.filter (fun o =>
    isArrayOfObjs o.child && (2 ≤ (parentTables rels (fingerprint o.child)).length : Bool))

/-- The distinct (parent, field) pairs needing a junction table. -/
def junctionKeys (rels : List RelOcc) : List (String × String) :=
  firstDedup ((junctionOccs rels).map (fun o => (o.parent, o.field)))

/-- Modelled from the spec (§4.4): a junction table is declared with exactly
two integer columns, `(parent_id, child_id)`, and holds one pair per child
element; the model enumerates the pairs by occurrence and element index. -/
def junctionColumns (parent child : String) : List (String × ColType) :=
  [(parent ++ "_id", ColType.integer), (child ++ "_id", ColType.integer)]

def junctionElemCount (rels : List RelOcc) (parent field : String) : Nat :=
  ((junctionOccs rels).filter (fun o => o.parent == parent && o.field == field)).foldl
    (fun n o => n + (match o.child with | .arr xs => xs.length | _ => 0)) 0

def junctionTableData (rels : List RelOcc) (parent field : String) : TableData :=
  { columns := junctionColumns parent field
    rows := (List.range (junctionElemCount rels parent field)).map
      (fun i => [SqlValue.int i, SqlValue.int i]) }

/-- Modelled from the spec (§4.4): the synthetic junction tables. -/
def junctionTablesOf (rels : List RelOcc) : Store :=
  (junctionKeys rels).map (fun pf =>
    (pf.1 ++ "_" ++ pf.2, junctionTableData rels pf.1 pf.2))

/-- Modelled from the spec (§4.4): the full materialized store of a staged
document — the entity tables in discovery order, then the junction tables. -/
def storeOfCore (d : Json) : Store :=
  let rows := rowsOfJson "root" d
  let rels := relsOfJson "root" d
  (tableNamesOf rows).map (fun t => (t, tableDataFor rows rels t))
    ++ junctionTablesOf rels

/-- Per-table schema report, embedded from `src/lib/types.ts` `SchemaInfo`
(columns, row_count, sample_data, relationships). -/
structure SchemaInfo where
  columns : List (String × ColType)
  row_count : Nat
  sample_data : List (List SqlValue)
  relationships : List (String × RelationshipInfo)

/-- Modelled from the spec (§4.4): the relationships attached to table `t`
(one per nested field discovered under it), keyed by field name. -/
def relationshipsFor (rows : List RowOcc) (rels : List RelOcc) (t : String) :
    List (String × RelationshipInfo) :=
  (rels.filter (fun o => o.parent == t)).map (fun o => (o.field, classify rows rels o))

/-- Modelled from the spec (§4.4): the bounded sample size for schema
introspection. -/
def sampleSize : Nat := 5

def schemaInfoOf (rows : List RowOcc) (rels : List RelOcc) (t : String)
    (td : TableData) : SchemaInfo :=
  { columns := td.columns
    row_count := td.rows.length
    sample_data := td.rows.take sampleSize
    relationships := relationshipsFor rows rels t }

/-- Modelled from the spec (§4.4): per-table schema reports for a staged
document. -/
def schemasOfCore (d : Json) : List (String × SchemaInfo) :=
  let rows := rowsOfJson "root" d
  let rels := relsOfJson "root" d
  (storeOfCore d).map (fun nt => (nt.1, schemaInfoOf rows rels nt.1 nt.2))

/-- Error taxonomy of the engine (spec §7). -/
inductive EngineError where
  | schemaInference (msg : String) : EngineError
  | unknownSession : EngineError
  | disallowedStatement : EngineError
  | sqlExecution (msg : String) : EngineError
  | storage (msg : String) : EngineError

def describeEngineError : EngineError → String
  | .schemaInference m => "SchemaInferenceError: " ++ m
  | .unknownSession => "UnknownSessionError: no data staged under this access id"
  | .disallowedStatement => "DisallowedStatementError: only read-only SELECT statements are allowed"
  | .sqlExecution m => "SqlExecutionError: " ++ m
  | .storage m => "StorageError: " ++ m

/-- Cursor-pagination metadata, embedded from `src/lib/types.ts`
`PaginationInfo`. -/
structure PaginationInfo where
  hasNextPage : Bool
  hasPreviousPage : Bool
  currentCount : Nat
  totalCount : Option Nat
  endCursor : Option String
  startCursor : Option String
  suggestion : Option String

/-- Staging response, embedded from `src/lib/types.ts` `ProcessingResult`
(success flag, per-table SchemaInfo, aggregate counts). -/
structure ProcessingResult where
  success : Bool
  message : Option String
  schemas : List (String × SchemaInfo)
  table_count : Nat
  total_rows : Nat
  pagination : Option PaginationInfo

/-- The GraphQL `data` envelope: the engine accepts either the whole
response or its `data` field transparently (spec §4.2; src/index.ts line 97:
"The DO can handle jsonData.data or jsonData directly"). -/
def unwrapData : Json → Json
  | .obj kvs =>
    match kvs.lookup "data" with
    | some d => d
    | none => .obj kvs
  | j => j

/-- Modelled from the spec (§4.2, §4.4, §7; the Durable Object source is not
available): process one staged JSON document into schema reports.  A root
that is neither an object nor an array of objects is a malformed shape and
fails the whole staging call with `SchemaInferenceError`; nothing is
partially materialized. -/
def processJson (doc : Json) : Except EngineError ProcessingResult :=
  let d := unwrapData doc
  if isObjNode d || isArrayOfObjs d then
    let schemas := schemasOfCore d
    .ok { success := true
          message := none
          schemas := schemas
          table_count := schemas.length
          total_rows := (schemas.map (fun s => s.2.row_count)).foldl (· + ·) 0
          pagination := none }
  else
    .error (.schemaInference "unsupported root JSON shape: expected an object or an array of objects")

/-- Opaque access identifier.  `crypto.randomUUID()` (src/index.ts line 209)
is modelled as a fresh-identifier supply: the state carries the next unused
identifier and the list of identifiers minted so far, and freshness means a
newly minted identifier never equals a previously minted one. -/
abbrev AccessId := Nat

/-- The process-wide state: the fresh-identifier supply and the session
registry.  `env.JSON_TO_SQL_DO.idFromName(accessId)` (src/index.ts lines
210, 240) deterministically addresses one Durable Object instance per access
id; the registry is modelled as a map from access id to its store. -/
structure SysState where
  nextId : Nat
  minted : List AccessId
  sessions : List (AccessId × Store)

def initState : SysState :=
  { nextId := 0, minted := [], sessions := [] }

/-- Well-formedness of the registry: every session key and every minted
identifier is below the supply counter, and session keys are distinct (each
access id owns at most one store instance). -/
def WF (st : SysState) : Prop :=
  (∀ k ∈ st.sessions.map Prod.fst, k < st.nextId) ∧
  (∀ m ∈ st.minted, m < st.nextId) ∧
  (st.sessions.map Prod.fst).Nodup

/-- Successful staging response of `stageDataInDurableObject`
(src/index.ts lines 228-231): the minted access id plus the Durable
Object's processing result. -/
structure StageOk where
  data_access_id : AccessId
  processing_details : ProcessingResult

/-- Embedded from `stageDataInDurableObject` (src/index.ts lines 203-232),
with the Durable Object's `/process` endpoint modelled from the spec: mint a
fresh access id, send the serialized copy of the GraphQL result to that
id's store, and either record the materialized store and return the id with
the processing details, or propagate the failure (the thrown error carries
no access id and nothing is materialized). -/
def stageDataInDO (st : SysState) (graphqlResult : Json) : SysState × Except String StageOk :=
  let accessId := st.nextId
  let sent := jsonCopy graphqlResult
  match processJson sent with
  | .error e =>
    ({ st with nextId := accessId + 1, minted := accessId :: st.minted },
      .error ("Durable Object data staging failed: " ++ describeEngineError e))
  | .ok pr =>
    ({ nextId := accessId + 1
       minted := accessId :: st.minted
       sessions := (accessId, storeOfCore (unwrapData sent)) :: st.sessions },
      .ok ⟨accessId, pr⟩)

/-- Modelled from the spec (§4.6): keywords whose presence marks a statement
as data-modifying or schema-modifying. -/
def disallowedKeywords : List String :=
  ["INSERT", "UPDATE", "DELETE", "DROP", "CREATE", "ALTER", "TRUNCATE",
   "REPLACE", "ATTACH", "DETACH", "PRAGMA", "VACUUM", "GRANT", "REVOKE"]

/-- ASCII whitespace, for trimming SQL text. -/
def isWSChar (c : Char) : Bool :=
  c == ' ' || c == '\t' || c == '\n' || c == '\r'

/-- Trim leading and trailing whitespace from a character list. -/
def trimL (l : List Char) : List Char :=
  ((l.dropWhile isWSChar).reverse.dropWhile isWSChar).reverse

/-- Uppercase a character list. -/
def upperL (l : List Char) : List Char :=
  l.map Char.toUpper

/-- Whether `pat` is a prefix of the second list. -/
def isPrefixL : List Char → List Char → Bool
  | [], _ => true
  | _ :: _, [] => false
  | p :: ps, c :: cs => p == c && isPrefixL ps cs

/-- Whether `pat` occurs as a contiguous substring. -/
def hasSubstrL (pat : List Char) : List Char → Bool
  | [] => isPrefixL pat []
  | c :: cs => isPrefixL pat (c :: cs) || hasSubstrL pat cs

/-- Drop one trailing semicolon, if present. -/
def dropLastSemicolon (l : List Char) : List Char :=
  if l.getLast? == some ';' then l.dropLast else l

/-- Modelled from the spec (§4.6; the Durable Object source is not
available): the read-only policy.  A statement is accepted only when, after
trimming and uppercasing and dropping one trailing semicolon, it is a single
`SELECT` (or `WITH` containing a `SELECT`) statement, contains no further
semicolon (no multiple statements), and contains none of the
data-modification or schema-modification keywords. -/
def isReadOnlySQL (sql : String) : Bool :=
  let core := trimL (dropLastSemicolon (upperL (trimL sql.data)))
  (isPrefixL "SELECT".data core
      || (isPrefixL "WITH".data core && hasSubstrL "SELECT".data core))
    && !(core.contains ';')
    && disallowedKeywords.all (fun kw => !hasSubstrL kw.data core)

/-- Successful query response: result columns in order, rows as ordered
value tuples (spec §4.6). -/
structure QueryOk where
  columns : List String
  rows : List (List SqlValue)

/-- Split a character list into whitespace-separated words (`cur` is the
current word, reversed). -/
def splitWordsAux (cur : List Char) : List Char → List (List Char)
  | [] => if cur.isEmpty then [] else [cur.reverse]
  | c :: cs =>
    if isWSChar c then
      if cur.isEmpty then splitWordsAux [] cs
      else cur.reverse :: splitWordsAux [] cs
    else splitWordsAux (c :: cur) cs

/-- Modelled from the spec (§4.6; the embedded relational engine itself is
external): execution of an already-validated statement.  The model executes
the fragment `SELECT * FROM <table>`; an unknown table is a
`SqlExecutionError`, and any other statement form is reported as
unsupported by the model, also as `SqlExecutionError`. -/
def execSelect (store : Store) (sql : String) : Except EngineError QueryOk :=
  let core := trimL (dropLastSemicolon (trimL sql.data))
  match splitWordsAux [] core with
  | [s, star, f, t] =>
    if upperL s == "SELECT".data && star == ['*'] && upperL f == "FROM".data then
      match store.lookup (String.mk t) with
      | some td => .ok ⟨td.columns.map Prod.fst, td.rows⟩
      | none => .error (.sqlExecution ("no such table: " ++ String.mk t))
    else .error (.sqlExecution "statement form not supported by the model")
  | _ => .error (.sqlExecution "statement form not supported by the model")

/-- Embedded from `executeSQLQuery` (src/index.ts lines 234-257), with the
Durable Object's `/query` endpoint modelled from the spec (§4.5, §4.6): the
access id addresses its session's store; an unknown access id fails with
`UnknownSessionError` and never creates a store; a statement rejected by the
read-only policy fails with `DisallowedStatementError`; queries never mutate
any session. -/
def queryDO (st : SysState) (accessId : AccessId) (sql : String) :
    SysState × Except EngineError QueryOk :=
  match st.sessions.lookup accessId with
  | none => (st, .error .unknownSession)
  | some store =>
    if isReadOnlySQL sql then (st, execSelect store sql)
    else (st, .error .disallowedStatement)

/-- The SQL tool's user-visible response shape (src/index.ts lines 117-126
and `createErrorResponse`, lines 262-280): a failure carries
`success: false` and a message, and never carries rows. -/
structure SqlToolResp where
  success : Bool
  columns : List String
  rows : List (List SqlValue)
  message : Option String

/-- Embedded from the `dgidb_query_sql` tool handler (src/index.ts lines
109-127): run the query and shape the result; any failure is converted by
`createErrorResponse` into a structured `success: false` response. -/
def sqlTool (st : SysState) (accessId : AccessId) (sql : String) :
    SysState × SqlToolResp :=
  let r := queryDO st accessId sql
  match r.2 with
  | .ok q => (r.1, ⟨true, q.columns, q.rows, none⟩)
  | .error e =>
    (r.1, ⟨false, [], [], some ("SQL execution failed: " ++ describeEngineError e)⟩)

/-- The upstream GraphQL result as seen by the tool handler: optional `data`
and optional `errors` fields (src/index.ts line 151). -/
structure GraphQLResult where
  dataField : Option Json
  errorsField : Option (List String)

/-- The JSON object sent to the Durable Object for the whole GraphQL result
(src/index.ts line 217 serializes the full result). -/
def jsonOfGraphQLResult (r : GraphQLResult) : Json :=
  Json.obj
    ((match r.dataField with
      | some d => [("data", d)]
      | none => []) ++
     (match r.errorsField with
      | some es => [("errors", Json.arr (es.map Json.str))]
      | none => []))

/-- Outcome of the `dgidb_graphql_query` tool (src/index.ts lines 67-106):
either the raw GraphQL result returned directly (errors and no data), or a
staged result with `data_access_id` and `processing_details`, or a
`createErrorResponse` failure carrying no access id. -/
inductive GraphQLToolResp where
  | rawResult (r : GraphQLResult) : GraphQLToolResp
  | staged (data_access_id : AccessId) (processing_details : ProcessingResult) : GraphQLToolResp
  | errorResp (error : String) (details : String) : GraphQLToolResp

/-- JavaScript falsiness of a JSON value, as tested by `!graphqlResult.data`
(src/index.ts line 92): `null`, `false`, `0`, and the empty string are
falsy; objects and arrays are always truthy. -/
def jsFalsy : Json → Bool
  | .null => true
  | .bool b => !b
  | .num q => q.num == 0
  | .str s => s.isEmpty
  | .arr _ => false
  | .obj _ => false

/-- Falsiness of the optional `data` field: an absent field (`undefined`)
is falsy, a present field is falsy exactly when its value is. -/
def dataFalsy : Option Json → Bool
  | none => true
  | some j => jsFalsy j

/-- Embedded from the `dgidb_graphql_query` tool handler (src/index.ts lines
81-105): if the GraphQL response indicates errors and no data
(`graphqlResult.errors && !graphqlResult.data`, i.e. the `data` field is
absent or JavaScript-falsy), return it directly without staging; otherwise
stage the whole result in a fresh Durable Object session. -/
def graphqlTool (st : SysState) (r : GraphQLResult) : SysState × GraphQLToolResp :=
  if r.errorsField.isSome && dataFalsy r.dataField then
    (st, .rawResult r)
  else
    let s := stageDataInDO st (jsonOfGraphQLResult r)
    match s.2 with
    | .ok ok => (s.1, .staged ok.data_access_id ok.processing_details)
    | .error m => (s.1, .errorResp "GraphQL execution or data staging failed" m)

/- ======================================================================
   Witness fixtures: a small staged document and the session it produces.
   ====================================================================== -/

/-- Witness document payload. -/
def wData : Json := Json.obj [("a", Json.num 1)]

def wCols : List (String × ColType) := [("id", .integer), ("a", .integer)]

def wStore : Store := [("root", ⟨wCols, [[.int 0, .int 1]]⟩)]

def wPr : ProcessingResult :=
  { success := true, message := none
    schemas := [("root", ⟨wCols, 1, [[.int 0, .int 1]], []⟩)]
    table_count := 1, total_rows := 1, pagination := none }

/-- The state after staging `wData` from the initial state. -/
def wState : SysState := ⟨1, [0], [(0, wStore)]⟩

/-- Witness document with one single-object child and one array child. -/
def wRelDoc : Json :=
  Json.obj [("drug", Json.obj [("name", Json.str "Imatinib")]),
            ("interactions", Json.arr [Json.obj [("score", Json.num 5)]])]

/-- The single-object occurrence discovered in `wRelDoc`. -/
def wDrugOcc : RelOcc := ⟨"root", "drug", Json.obj [("name", Json.str "Imatinib")]⟩

/-- The array-of-objects occurrence discovered in `wRelDoc`. -/
def wInterOcc : RelOcc :=
  ⟨"root", "interactions", Json.arr [Json.obj [("score", Json.num 5)]]⟩

/-- Witness GraphQL result carrying both errors and data. -/
def wResult : GraphQLResult := ⟨some wData, some ["boom"]⟩

/-- Witness GraphQL result carrying errors and no data. -/
def wErrOnlyResult : GraphQLResult := ⟨none, some ["boom"]⟩

/-- Witness GraphQL result carrying errors and an explicitly null data
field. -/
def wNullDataResult : GraphQLResult := ⟨some Json.null, some ["boom"]⟩

/-- GraphQL result carrying errors and a present, non-null, but
JavaScript-falsy data field (the number 0). -/
def wFalsyResult : GraphQLResult := ⟨some (Json.num 0), some ["boom"]⟩

/- ======================================================================
   Helper lemmas.
   ====================================================================== -/

mutual

theorem jsonCopy_eq : (j : Json) → jsonCopy j = j
  | .null => rfl
  | .bool _ => rfl
  | .num _ => rfl
  | .str _ => rfl
  | .arr xs => by rw [jsonCopy, jsonCopyList_eq]
  | .obj kvs => by rw [jsonCopy, jsonCopyFields_eq]

theorem jsonCopyList_eq : (xs : List Json) → jsonCopyList xs = xs
  | [] => rfl
  | x :: xs => by rw [jsonCopyList, jsonCopy_eq, jsonCopyList_eq]

theorem jsonCopyFields_eq : (kvs : List (String × Json)) → jsonCopyFields kvs = kvs
  | [] => rfl
  | (k, v) :: kvs => by rw [jsonCopyFields, jsonCopy_eq, jsonCopyFields_eq]

end

theorem lookup_none_of_bound (l : List (AccessId × Store)) (n : Nat)
    (h : ∀ k ∈ l.map Prod.fst, k < n) : l.lookup n = none := by
  induction l with
  | nil => rfl
  | cons p l ih =>
    have hp : p.1 < n := h p.1 (by simp)
    have hne : (n == p.1) = false := by
      simp [Nat.ne_of_gt hp]
    obtain ⟨a, b⟩ := p
    simp only [List.lookup, hne]
    exact ih (fun k hk => h k (by simp [hk]))

theorem lookup_cons_ne (l : List (AccessId × Store)) (a b : AccessId) (s : Store)
    (h : b ≠ a) : ((a, s) :: l).lookup b = l.lookup b := by
  have hb : (b == a) = false := by simp [h]
  simp [List.lookup, hb]

/-- Shape of a successful staging call: the minted id is the supply counter,
and the new state records the materialized store under it. -/
theorem stage_ok_shape (st : SysState) (doc : Json) (st' : SysState)
    (id : AccessId) (pr : ProcessingResult)
    (h : stageDataInDO st doc = (st', .ok ⟨id, pr⟩)) :
    id = st.nextId ∧ processJson (jsonCopy doc) = .ok pr ∧
    st' = ⟨st.nextId + 1, st.nextId :: st.minted,
           (st.nextId, storeOfCore (unwrapData (jsonCopy doc))) :: st.sessions⟩ := by
  simp only [stageDataInDO] at h
  cases hp : processJson (jsonCopy doc) with
  | error e =>
    rw [hp] at h
    simp at h
  | ok pr0 =>
    rw [hp] at h
    simp only [Prod.mk.injEq, Except.ok.injEq, StageOk.mk.injEq] at h
    obtain ⟨hst, hid, hpr⟩ := h
    exact ⟨hid.symm, by rw [hpr], hst.symm⟩

/-- Shape of a failed staging call: the id supply advances but the session
registry is untouched — nothing is partially materialized and no session is
created. -/
theorem stage_error_shape (st : SysState) (doc : Json) (st' : SysState)
    (msg : String) (h : stageDataInDO st doc = (st', .error msg)) :
    st' = { st with nextId := st.nextId + 1, minted := st.nextId :: st.minted } := by
  simp only [stageDataInDO] at h
  cases hp : processJson (jsonCopy doc) with
  | error e =>
    rw [hp] at h
    simp only [Prod.mk.injEq] at h
    exact h.1.symm
  | ok pr0 =>
    rw [hp] at h
    simp at h

/-- Queries never mutate the state. -/
theorem queryDO_fst (st : SysState) (accessId : AccessId) (sql : String) :
    (queryDO st accessId sql).1 = st := by
  unfold queryDO
  cases st.sessions.lookup accessId with
  | none => rfl
  | some store =>
    by_cases h : isReadOnlySQL sql = true
    · simp [h]
    · simp [h]

/-- Staging preserves well-formedness of the registry. -/
theorem WF_stage (st : SysState) (doc : Json) (st' : SysState)
    (res : Except String StageOk) (hwf : WF st)
    (h : stageDataInDO st doc = (st', res)) : WF st' := by
  obtain ⟨hk, hm, hnd⟩ := hwf
  cases res with
  | error msg =>
    rw [stage_error_shape st doc st' msg h]
    refine ⟨fun k hk' => Nat.lt_succ_of_lt (hk k hk'), ?_, hnd⟩
    intro m hm'
    rcases List.mem_cons.mp hm' with rfl | h2
    · exact Nat.lt_succ_self _
    · exact Nat.lt_succ_of_lt (hm m h2)
  | ok r =>
    obtain ⟨id, pr⟩ := r
    obtain ⟨hid, hpr, hst⟩ := stage_ok_shape st doc st' id pr h
    rw [hst]
    refine ⟨?_, ?_, ?_⟩
    · intro k hk'
      simp only [List.map_cons, List.mem_cons] at hk'
      rcases hk' with rfl | h2
      · exact Nat.lt_succ_self _
      · exact Nat.lt_succ_of_lt (hk k h2)
    · intro m hm'
      rcases List.mem_cons.mp hm' with rfl | h2
      · exact Nat.lt_succ_self _
      · exact Nat.lt_succ_of_lt (hm m h2)
    · refine List.Nodup.cons ?_ hnd
      intro hmem
      exact absurd (hk st.nextId hmem) (Nat.lt_irrefl st.nextId)

/-- An object node is not an array of objects, and conversely. -/
theorem isArrayOfObjs_eq_false_of_isObjNode (j : Json)
    (h : isObjNode j = true) : isArrayOfObjs j = false := by
  cases j <;> simp_all [isObjNode, isArrayOfObjs]

theorem isObjNode_eq_false_of_isArrayOfObjs (j : Json)
    (h : isArrayOfObjs j = true) : isObjNode j = false := by
  cases j <;> simp_all [isObjNode, isArrayOfObjs]

/-- `firstDedup` keeps every element (an element already seen is kept in
`seen`, never lost). -/
theorem mem_seen_or_firstDedupAux [BEq α] [LawfulBEq α] (a : α) (l : List α) :
    ∀ seen : List α, a ∈ l → a ∈ seen ∨ a ∈ firstDedupAux seen l := by
  induction l with
  | nil => intro seen h; cases h
  | cons x xs ih =>
    intro seen h
    by_cases hmem : x ∈ seen
    · have hc : seen.contains x = true := List.elem_eq_true_of_mem hmem
      rcases List.mem_cons.mp h with rfl | hx
      · exact Or.inl hmem
      · have h2 := ih seen hx
        simpa [firstDedupAux, hc, hmem] using h2
    · have hc : seen.contains x = false := by
        cases hcc : seen.contains x with
        | false => rfl
        | true => exact absurd (List.mem_of_elem_eq_true hcc) hmem
      rcases List.mem_cons.mp h with rfl | hx
      · right
        simp [firstDedupAux, hc, hmem]
      · rcases ih (x :: seen) hx with hs | hd
        · rcases List.mem_cons.mp hs with rfl | hs'
          · right
            simp [firstDedupAux, hc, hmem]
          · exact Or.inl hs'
        · right
          simp [firstDedupAux, hc, hmem, hd]

theorem mem_firstDedup_of_mem [BEq α] [LawfulBEq α] (a : α) (l : List α)
    (h : a ∈ l) : a ∈ firstDedup l := by
  rcases mem_seen_or_firstDedupAux a l [] h with hs | hd
  · cases hs
  · exact hd

/- ======================================================================
   Claim theorems.
   ====================================================================== -/

/-- C4 — The Type Unifier's merge of observed column types is a total
widening lattice: `null` contributes no information; mixing `integer` with
`real` yields `real`; mixing any scalar type with `text` yields `text`;
mixing any type with `json` yields `json`.  Unification never fails: the
merge is a total function into `ColType`, with no error outcome, so type
ambiguity is always resolved by widening. -/
theorem type_unifier_widening_lattice :
    (∀ t : Option ColType, observeType t Json.null = t) ∧
    (unify .integer .real = .real ∧ unify .real .integer = .real) ∧
    (∀ t : ColType, unify t .text = if t = .json then .json else .text) ∧
    (∀ t : ColType, unify .text t = if t = .json then .json else .text) ∧
    (∀ t : ColType, unify t .json = .json) ∧
    (∀ t : ColType, unify .json t = .json) ∧
    (∀ a b : ColType, unify (unify a b) (unify a b) = unify a b) := by
  refine ⟨fun t => rfl, ⟨rfl, rfl⟩, fun t => ?_, fun t => ?_, fun t => ?_, fun t => ?_,
    fun a b => ?_⟩ <;> first
    | (cases t <;> rfl)
    | (cases a <;> cases b <;> rfl)

/-- C1 — Session isolation: tables and rows staged under one access id are
never visible to a query issued with a different access id `b`: staging
changes neither the store looked up under `b` nor the outcome of any query
issued with `b`.  Together with well-formedness preservation (distinct
registry keys, so each access id maps to exactly one store instance),
two different access ids never share tables or rows. -/
theorem session_isolation (st : SysState) (doc : Json) (st' : SysState)
    (id : AccessId) (pr : ProcessingResult) (b : AccessId) (sql : String)
    (hwf : WF st) (h : stageDataInDO st doc = (st', .ok ⟨id, pr⟩)) (hb : b ≠ id) :
    st'.sessions.lookup b = st.sessions.lookup b ∧
    (queryDO st' b sql).2 = (queryDO st b sql).2 ∧
    WF st' := by
  obtain ⟨hid, hpr, hst⟩ := stage_ok_shape st doc st' id pr h
  have hlk : st'.sessions.lookup b = st.sessions.lookup b := by
    rw [hst]
    exact lookup_cons_ne st.sessions st.nextId b _ (hid ▸ hb)
  refine ⟨hlk, ?_, WF_stage st doc st' _ hwf h⟩
  unfold queryDO
  rw [hlk]
  cases st.sessions.lookup b with
  | none => rfl
  | some store =>
    by_cases hq : isReadOnlySQL sql = true
    · simp [hq]
    · simp [hq]

/-- C1 witness: staging a document leaves the session of a different access
id untouched and its query outcomes unchanged. -/
theorem session_isolation_witness :
    wState.sessions.lookup 7 = initState.sessions.lookup 7 ∧
    (queryDO wState 7 "SELECT * FROM root").2 =
      (queryDO initState 7 "SELECT * FROM root").2 ∧
    WF wState :=
  session_isolation initState (Json.obj [("data", wData)]) wState 0 wPr 7
    "SELECT * FROM root" (by simp [WF, initState]) rfl (by decide)

/-- C2 — Read-only query policy: for every existing session, a SQL input
rejected by the read-only validator (not a single `SELECT`/`WITH…SELECT`
statement, or containing modification keywords, or containing multiple
statements) fails with `DisallowedStatementError`, and the state — hence
every session's store — is left unchanged. -/
theorem query_rejects_non_readonly (st : SysState) (accessId : AccessId)
    (sql : String) (store : Store)
    (hs : st.sessions.lookup accessId = some store)
    (hsql : isReadOnlySQL sql = false) :
    queryDO st accessId sql = (st, .error .disallowedStatement) := by
  unfold queryDO
  rw [hs]
  simp [hsql]

/-- C2 witness: a `DROP TABLE` statement against a real session fails with
`DisallowedStatementError` and leaves the state unchanged. -/
theorem query_rejects_non_readonly_witness :
    queryDO wState 0 "DROP TABLE root" = (wState, .error .disallowedStatement) :=
  query_rejects_non_readonly wState 0 "DROP TABLE root" wStore rfl rfl

/-- C3 — Unknown-session behavior: a query with an access id that has no
session fails with `UnknownSessionError`, for every state (independent of
which other sessions exist), and leaves the state unchanged — the failed
lookup never creates a store.  Staging, by contrast, always creates the
session's store under the minted access id. -/
theorem unknown_session_never_creates :
    (∀ (st : SysState) (accessId : AccessId) (sql : String),
       st.sessions.lookup accessId = none →
       queryDO st accessId sql = (st, .error .unknownSession)) ∧
    (∀ (st : SysState) (doc : Json) (st' : SysState) (id : AccessId)
       (pr : ProcessingResult),
       stageDataInDO st doc = (st', .ok ⟨id, pr⟩) →
       st'.sessions.lookup id =
         some (storeOfCore (unwrapData (jsonCopy doc)))) := by
  constructor
  · intro st accessId sql h
    unfold queryDO
    rw [h]
  · intro st doc st' id pr h
    obtain ⟨hid, hpr, hst⟩ := stage_ok_shape st doc st' id pr h
    rw [hst, hid]
    simp [List.lookup]

/-- C3 witness: querying access id 7 in a state holding only session 0
fails with `UnknownSessionError` and changes nothing; staging from the
initial state creates the store of the staged document under the minted
id. -/
theorem unknown_session_never_creates_witness :
    queryDO wState 7 "SELECT * FROM root" = (wState, .error .unknownSession) ∧
    wState.sessions.lookup 0 = some wStore :=
  ⟨unknown_session_never_creates.1 wState 7 "SELECT * FROM root" rfl,
   unknown_session_never_creates.2 initState (Json.obj [("data", wData)])
     wState 0 wPr rfl⟩

/-- C6 — Failure atomicity at the public interface: a failed stage call
leaves the session registry untouched (and, returning `Except.error`,
carries no access id by construction); a failed query call surfaces at the
SQL tool as `success: false` with a message, with no rows and no state
change — never a partial result or a silently-empty success. -/
theorem failure_atomicity :
    (∀ (st : SysState) (doc : Json) (st' : SysState) (msg : String),
       stageDataInDO st doc = (st', .error msg) → st'.sessions = st.sessions) ∧
    (∀ (st : SysState) (accessId : AccessId) (sql : String) (e : EngineError),
       (queryDO st accessId sql).2 = .error e →
       (sqlTool st accessId sql).1 = st ∧
       (sqlTool st accessId sql).2.success = false ∧
       (sqlTool st accessId sql).2.rows = [] ∧
       ((sqlTool st accessId sql).2.message).isSome = true) := by
  constructor
  · intro st doc st' msg h
    rw [stage_error_shape st doc st' msg h]
  · intro st accessId sql e h
    have hfst := queryDO_fst st accessId sql
    simp only [sqlTool]
    rw [h, hfst]
    exact ⟨rfl, rfl, rfl, rfl⟩

/-- C6 witness: staging a malformed document (scalar root) fails and leaves
the registry empty; querying an unknown session produces a `success: false`
response with a message and no rows. -/
theorem failure_atomicity_witness :
    ((stageDataInDO initState (Json.num 3)).1).sessions = initState.sessions ∧
    (sqlTool initState 0 "SELECT * FROM root").2.success = false ∧
    (sqlTool initState 0 "SELECT * FROM root").2.rows = [] ∧
    ((sqlTool initState 0 "SELECT * FROM root").2.message).isSome = true :=
  ⟨failure_atomicity.1 initState (Json.num 3) _ _ rfl,
   (failure_atomicity.2 initState 0 "SELECT * FROM root" .unknownSession rfl).2.1,
   (failure_atomicity.2 initState 0 "SELECT * FROM root" .unknownSession rfl).2.2.1,
   (failure_atomicity.2 initState 0 "SELECT * FROM root" .unknownSession rfl).2.2.2⟩

/-- C7 — Staging is deterministic across sessions: staging the exact same
JSON twice, each time under a freshly minted access id, produces two
distinct sessions holding the identical materialized store, and the two
processing reports (schemas, table and row counts) are identical. -/
theorem staging_determinism (st st1 st2 : SysState) (doc : Json)
    (id1 id2 : AccessId) (p1 p2 : ProcessingResult)
    (h1 : stageDataInDO st doc = (st1, .ok ⟨id1, p1⟩))
    (h2 : stageDataInDO st1 doc = (st2, .ok ⟨id2, p2⟩)) :
    p1 = p2 ∧ id1 ≠ id2 ∧
    st2.sessions.lookup id1 = some (storeOfCore (unwrapData (jsonCopy doc))) ∧
    st2.sessions.lookup id2 = some (storeOfCore (unwrapData (jsonCopy doc))) ∧
    p1.schemas = p2.schemas ∧ p1.total_rows = p2.total_rows := by
  obtain ⟨hid1, hpr1, hst1⟩ := stage_ok_shape st doc st1 id1 p1 h1
  obtain ⟨hid2, hpr2, hst2⟩ := stage_ok_shape st1 doc st2 id2 p2 h2
  have hpp : p1 = p2 := by
    rw [hpr1] at hpr2
    exact (Except.ok.injEq _ _).mp hpr2
  have hne : id1 ≠ id2 := by
    rw [hid1, hid2, hst1]
    exact Nat.ne_of_lt (Nat.lt_succ_self _)
  refine ⟨hpp, hne, ?_, ?_, by rw [hpp], by rw [hpp]⟩
  · rw [hst2, lookup_cons_ne _ _ _ _ (by rw [← hid2]; exact hne), hst1, hid1]
    simp [List.lookup]
  · rw [hst2, hid2]
    simp [List.lookup]

/-- C7 witness: staging the same document twice from the initial state
yields identical reports and two sessions with the same store. -/
theorem staging_determinism_witness :
    wPr = wPr ∧ (0 : AccessId) ≠ 1 ∧
    ((stageDataInDO wState (Json.obj [("data", wData)])).1).sessions.lookup 0 =
      some wStore ∧
    ((stageDataInDO wState (Json.obj [("data", wData)])).1).sessions.lookup 1 =
      some wStore :=
  have h := staging_determinism initState wState
    (stageDataInDO wState (Json.obj [("data", wData)])).1
    (Json.obj [("data", wData)]) 0 1 wPr wPr rfl rfl
  ⟨h.1, h.2.1, h.2.2.1, h.2.2.2.1⟩

/-- C10 — Every staging call mints its own fresh access id from the supply
(modelling `crypto.randomUUID()`), never a caller-supplied identifier: the
minted id was never returned before (not among previously minted ids) and
addresses a brand-new session (no store exists under it before the call);
well-formedness is preserved, so this holds along every run. -/
theorem stage_mints_fresh_access_id (st : SysState) (doc : Json)
    (st' : SysState) (res : Except String StageOk) (hwf : WF st)
    (h : stageDataInDO st doc = (st', res)) :
    st'.minted = st.nextId :: st.minted ∧
    st.nextId ∉ st.minted ∧
    st.sessions.lookup st.nextId = none ∧
    (∀ id pr, res = .ok ⟨id, pr⟩ → id = st.nextId) ∧
    WF st' := by
  obtain ⟨hk, hm, hnd⟩ := hwf
  have hfresh : st.nextId ∉ st.minted := fun hmem =>
    absurd (hm st.nextId hmem) (Nat.lt_irrefl st.nextId)
  have hnone : st.sessions.lookup st.nextId = none :=
    lookup_none_of_bound st.sessions st.nextId hk
  have hminted : st'.minted = st.nextId :: st.minted := by
    cases res with
    | error msg => rw [stage_error_shape st doc st' msg h]
    | ok r =>
      obtain ⟨id, pr⟩ := r
      rw [(stage_ok_shape st doc st' id pr h).2.2]
  refine ⟨hminted, hfresh, hnone, ?_, WF_stage st doc st' res ⟨hk, hm, hnd⟩ h⟩
  intro id pr hres
  subst hres
  exact (stage_ok_shape st doc st' id pr h).1

/-- C10 witness: staging from the initial state mints access id 0, which was
never minted before and had no session, and the successor state is
well-formed. -/
theorem stage_mints_fresh_access_id_witness :
    wState.minted = 0 :: initState.minted ∧
    (0 : AccessId) ∉ initState.minted ∧
    initState.sessions.lookup 0 = none ∧ WF wState :=
  have h := stage_mints_fresh_access_id initState (Json.obj [("data", wData)])
    wState (.ok ⟨0, wPr⟩) (by simp [WF, initState]) rfl
  ⟨h.1, h.2.1, h.2.2.1, h.2.2.2.2⟩

/-- C9 counterexample — the claim as stated is false on the code: a GraphQL
result whose `errors` field is present and whose `data` field is present and
non-null — but JavaScript-falsy (here the number 0) — is returned raw,
without staging and without an access id, although the claim says staging is
skipped only when `data` is absent or null and that a non-null `data` field
is still staged. -/
theorem graphql_errors_with_data_counterexample :
    wFalsyResult.errorsField.isSome = true ∧
    wFalsyResult.dataField.isSome = true ∧
    wFalsyResult.dataField ≠ some Json.null ∧
    graphqlTool initState wFalsyResult = (initState, .rawResult wFalsyResult) :=
  ⟨rfl, rfl, fun h => Json.noConfusion (Option.some.inj h), rfl⟩

/-- C9 (amended) — When the upstream GraphQL result carries an `errors`
field together with a JavaScript-truthy `data` field (in particular any
non-null object), the staging tool still stages the data (a successful
staging yields the access id with processing details); staging is skipped —
the raw error result returned directly, with no access id produced —
exactly when `errors` is present and `data` is absent or JavaScript-falsy
(null, false, 0, or the empty string), matching
`graphqlResult.errors && !graphqlResult.data` on src/index.ts line 92. -/
theorem graphql_errors_with_data (st : SysState) (r : GraphQLResult) :
    (r.errorsField.isSome = true → dataFalsy r.dataField = true →
       graphqlTool st r = (st, .rawResult r)) ∧
    (∀ (d : Json) (st' : SysState) (ok : StageOk),
       r.dataField = some d → jsFalsy d = false →
       stageDataInDO st (jsonOfGraphQLResult r) = (st', .ok ok) →
       graphqlTool st r = (st', .staged ok.data_access_id ok.processing_details)) := by
  constructor
  · intro he hd
    simp [graphqlTool, he, hd]
  · intro d st' ok hd hfal hstage
    have hcond : (r.errorsField.isSome && dataFalsy r.dataField) = false := by
      simp [hd, dataFalsy, hfal]
    simp only [graphqlTool, hcond, Bool.false_eq_true, if_false]
    rw [hstage]

/-- C9 witness: a result with errors and a truthy (object) data field is
staged (access id 0 with the processing details of the data payload); a
result with errors and an explicitly null data field is returned raw,
without staging — and so is one with errors and no data field at all. -/
theorem graphql_errors_with_data_witness :
    graphqlTool initState wResult = (wState, .staged 0 wPr) ∧
    graphqlTool initState wNullDataResult = (initState, .rawResult wNullDataResult) ∧
    graphqlTool initState wErrOnlyResult = (initState, .rawResult wErrOnlyResult) :=
  ⟨(graphql_errors_with_data initState wResult).2 wData wState ⟨0, wPr⟩ rfl rfl rfl,
   (graphql_errors_with_data initState wNullDataResult).1 rfl rfl,
   (graphql_errors_with_data initState wErrOnlyResult).1 rfl rfl⟩

/-- C8 — Staging accepts the full upstream response object or its `data`
payload transparently (processing the whole response equals processing the
payload), always produces an access id plus a `ProcessingResult` on
success, and never mutates the caller-supplied input: the engine operates
on the serialize/parse copy of the input, and that copy is identical to
the input value, which is therefore the same before and after the call. -/
theorem stage_preserves_input (st : SysState) (doc : Json) :
    (jsonCopy doc = doc) ∧
    (∀ (kvs : List (String × Json)) (d : Json),
       kvs.lookup "data" = some d → unwrapData (Json.obj kvs) = d) ∧
    (∀ (kvs : List (String × Json)) (d : Json),
       kvs.lookup "data" = some d → unwrapData d = d →
       processJson (Json.obj kvs) = processJson d) ∧
    (∀ (st' : SysState) (r : StageOk),
       stageDataInDO st doc = (st', .ok r) →
       r.data_access_id = st.nextId ∧
       processJson doc = .ok r.processing_details) := by
  refine ⟨jsonCopy_eq doc, ?_, ?_, ?_⟩
  · intro kvs d hlk
    simp [unwrapData, hlk]
  · intro kvs d hlk hself
    simp only [processJson]
    rw [show unwrapData (Json.obj kvs) = d from by simp [unwrapData, hlk], hself]
  · intro st' r h
    obtain ⟨id, pr⟩ := r
    obtain ⟨hid, hpr, hst⟩ := stage_ok_shape st doc st' id pr h
    rw [jsonCopy_eq doc] at hpr
    exact ⟨hid, hpr⟩

/-- C8 witness: the serialized copy of a concrete response equals the
response; processing the enveloped response equals processing its payload;
the successful stage call returns the minted access id together with the
processing result of the input. -/
theorem stage_preserves_input_witness :
    jsonCopy (Json.obj [("data", wData)]) = Json.obj [("data", wData)] ∧
    processJson (Json.obj [("data", wData)]) = processJson wData ∧
    (0 : AccessId) = initState.nextId ∧
    processJson (Json.obj [("data", wData)]) = .ok wPr :=
  have h := stage_preserves_input initState (Json.obj [("data", wData)])
  have h4 := h.2.2.2 wState ⟨0, wPr⟩ rfl
  ⟨h.1, h.2.2.1 [("data", wData)] wData rfl rfl, h4.1, h4.2⟩

/-- C5 — Relationship classification is determined by nesting shape: for
every staged document, a field whose value is a single nested object yields
a `foreign_key` relationship with confidence 1.0, the parent table gaining
a synthetic foreign-key column pointing at the child; a nested array of
objects whose shape is reachable from exactly one parent shape yields
one-to-many — a `foreign_key` in the reverse direction (child gains a column
pointing back at the parent); a child shape reachable from two or more
distinct parent shapes yields a `junction_table`, materialized with exactly
the `(parent_id, child_id)` integer column pair. -/
theorem relationship_classification (d : Json) (o : RelOcc)
    (ho : o ∈ relsOfJson "root" d) :
    (isObjNode o.child = true →
       classify (rowsOfJson "root" d) (relsOfJson "root" d) o =
         ⟨.foreign_key, o.field, some (o.field ++ "_id"), none, 1⟩ ∧
       ((o.field ++ "_id"), ColType.integer) ∈
         columnsFor (rowsOfJson "root" d) (relsOfJson "root" d) o.parent) ∧
    (isArrayOfObjs o.child = true →
       ((parentTables (relsOfJson "root" d) (fingerprint o.child)).length = 1 →
          classify (rowsOfJson "root" d) (relsOfJson "root" d) o =
            ⟨.foreign_key, o.parent, some (o.parent ++ "_id"), none,
             oneToManyConfidence (rowsOfJson "root" d) (relsOfJson "root" d) o⟩) ∧
       (2 ≤ (parentTables (relsOfJson "root" d) (fingerprint o.child)).length →
          classify (rowsOfJson "root" d) (relsOfJson "root" d) o =
            ⟨.junction_table, o.field, none, some (o.parent ++ "_" ++ o.field),
             junctionConfidence (relsOfJson "root" d) o⟩ ∧
          (o.parent ++ "_" ++ o.field,
             junctionTableData (relsOfJson "root" d) o.parent o.field) ∈
            storeOfCore d ∧
          (junctionTableData (relsOfJson "root" d) o.parent o.field).columns =
            [(o.parent ++ "_id", ColType.integer),
             (o.field ++ "_id", ColType.integer)])) := by
  constructor
  · intro hobj
    have harr : isArrayOfObjs o.child = false :=
      isArrayOfObjs_eq_false_of_isObjNode o.child hobj
    constructor
    · simp [classify, hobj]
    · have hflat : (o.field ++ "_id") ∈
          ((relsOfJson "root" d).map (fun o' =>
            (if o'.parent == o.parent && isObjNode o'.child
              then [o'.field ++ "_id"] else []) ++
            (if o'.field == o.parent && isArrayOfObjs o'.child
                && !(2 ≤ (parentTables (relsOfJson "root" d)
                      (fingerprint o'.child)).length : Bool)
              then [o'.parent ++ "_id"] else []))).flatten := by
        refine List.mem_flatten.mpr ⟨_, List.mem_map_of_mem _ ho, ?_⟩
        simp [hobj, harr]
      have hfk : (o.field ++ "_id") ∈
          fkColumnsFor (relsOfJson "root" d) o.parent :=
        mem_firstDedup_of_mem _ _ hflat
      exact List.mem_cons_of_mem _ (List.mem_append_right _
        (List.mem_map_of_mem (fun c => (c, ColType.integer)) hfk))
  · intro harr
    have hobjF : isObjNode o.child = false :=
      isObjNode_eq_false_of_isArrayOfObjs o.child harr
    constructor
    · intro hlen1
      have hnot2 : ¬ 2 ≤ (parentTables (relsOfJson "root" d)
          (fingerprint o.child)).length := by
        rw [hlen1]
        omega
      simp [classify, hobjF, hnot2]
    · intro hlen2
      refine ⟨by simp [classify, hobjF, hlen2], ?_, rfl⟩
      have hocc : o ∈ junctionOccs (relsOfJson "root" d) := by
        refine List.mem_filter.mpr ⟨ho, ?_⟩
        simp [harr, hlen2]
      have hkey : (o.parent, o.field) ∈ junctionKeys (relsOfJson "root" d) :=
        mem_firstDedup_of_mem _ _
          (List.mem_map_of_mem (fun o' => (o'.parent, o'.field)) hocc)
      have hjt : (o.parent ++ "_" ++ o.field,
          junctionTableData (relsOfJson "root" d) o.parent o.field) ∈
          junctionTablesOf (relsOfJson "root" d) :=
        List.mem_map_of_mem
          (fun pf => (pf.1 ++ "_" ++ pf.2,
            junctionTableData (relsOfJson "root" d) pf.1 pf.2)) hkey
      simp only [storeOfCore]
      exact List.mem_append_right _ hjt

/-- C5 witness: in a document holding a single-object child field `drug` and
an array child field `interactions` reachable from one parent shape, `drug`
classifies as `foreign_key` with confidence 1 and the parent table gains the
`drug_id` integer column, while `interactions` classifies as the reverse
`foreign_key` (one-to-many) pointing back at the parent. -/
theorem relationship_classification_witness :
    classify (rowsOfJson "root" wRelDoc) (relsOfJson "root" wRelDoc) wDrugOcc =
      ⟨.foreign_key, "drug", some "drug_id", none, 1⟩ ∧
    ("drug_id", ColType.integer) ∈
      columnsFor (rowsOfJson "root" wRelDoc) (relsOfJson "root" wRelDoc) "root" ∧
    classify (rowsOfJson "root" wRelDoc) (relsOfJson "root" wRelDoc) wInterOcc =
      ⟨.foreign_key, "root", some "root_id", none,
        oneToManyConfidence (rowsOfJson "root" wRelDoc)
          (relsOfJson "root" wRelDoc) wInterOcc⟩ :=
  have h1 := (relationship_classification wRelDoc wDrugOcc (List.Mem.head _)).1 rfl
  have h2 := ((relationship_classification wRelDoc wInterOcc
    (List.Mem.tail _ (List.Mem.head _))).2 rfl).1 rfl
  ⟨h1.1, h1.2, h2⟩

end Dgidb
